import Mathlib

/-!
Verification development for the light-schedule-service repository.

The definitions below are a shallow embedding of the Python sources:
  - `src/aws/lights_get_lambda/utils.py` (time conversion)
  - `src/aws/lights_get_lambda/models.py` (ScheduleItem / LightConfig)
  - `src/aws/lights_get_lambda/lambda_function.py` (timezone fallback chain)
  - `src/aws/lights_post_lambda/lambda_function.py` (write validation)

Conventions used throughout:
  - Python functions that can raise are embedded as `Option`-valued (or
    `Except`-valued) functions, `none` / `.error` marking a raised exception.
  - The current wall-clock time (`datetime.now` / `time.time()`) is passed
    explicitly as an integer `nowUtc` of seconds since the epoch.
  - Python `dict` values are embedded as association lists looked up by
    first key occurrence (Python dicts have unique keys).
  - Network calls (IP geolocation) are passed in as oracle functions.
-/

/-! ### Python string/number primitives

`str.split(sep)` for a one-character separator, and `int(str)` parsing
(sign plus decimal digits), modelled at the character-list level.
-/

/-- One step of Python `str.split` on a single-character separator. -/
def splitOnChar (sep : Char) : List Char → List (List Char)
  | [] => [[]]
  | x :: xs =>
    match splitOnChar sep xs with
    | [] => [[]]
    | h :: t => if x = sep then [] :: h :: t else (x :: h) :: t

/-- Python `s.split(sep)` for a one-character separator. -/
def pySplit (s : String) (sep : Char) : List String :=
  (splitOnChar sep s.toList).map List.asString

/-- Accumulating decimal-digit parser; `none` once a non-digit is hit. -/
def parseNatDigits : List Char → Option Nat → Option Nat
  | [], acc => acc
  | c :: cs, acc =>
    if c.isDigit then
      parseNatDigits cs (acc.map (fun n => n * 10 + (c.toNat - 48)))
    else none

/-- Python `int(s)`: optional sign followed by at least one decimal digit;
raises (`none`) otherwise. -/
def pyParseInt (s : String) : Option Int :=
  match s.toList with
  | [] => none
  | '-' :: rest =>
    if rest.isEmpty then none
    else (parseNatDigits rest (some 0)).map (fun n => -(n : Int))
  | '+' :: rest =>
    if rest.isEmpty then none
    else (parseNatDigits rest (some 0)).map (fun n => (n : Int))
  | cs => (parseNatDigits cs (some 0)).map (fun n => (n : Int))

/-- Python `list(map(int, s.split(':')))` as used by `models.py`. -/
def strToInts (s : String) : Option (List Int) :=
  (pySplit s ':').mapM pyParseInt

/-- Python `f"{n:02d}"`: zero-pad to width 2 (only one-digit results grow). -/
def fmt2 (n : Int) : String :=
  let s := toString n
  if s.length = 1 then "0" ++ s else s

/-- Association-list embedding of Python `dict.get(key)`. -/
def dictGet {α : Type} : List (String × α) → String → Option α
  | [], _ => none
  | (k, v) :: rest, key => if k = key then some v else dictGet rest key

/-- Association-list embedding of Python `d[key] = v` (replace or append). -/
def dictSet {α : Type} : List (String × α) → String → α → List (String × α)
  | [], key, v => [(key, v)]
  | (k, w) :: rest, key, v =>
    if k = key then (key, v) :: rest else (k, w) :: dictSet rest key v

/-! ### utils.py -/

/-- `utils.convert_to_unix_timestamp(time_str, utc_offset_seconds)`:
interprets `time_str` ("HH:mm") as a wall clock on today's date in the
fixed-offset local zone and returns the epoch timestamp.  `nowUtc` is the
current UTC time (`datetime.now(timezone.utc)`) in epoch seconds.
`none` models the `ValueError` raised on malformed input. -/
def convert_to_unix_timestamp (nowUtc : Int) (time_str : String)
    (utc_offset_seconds : Int) : Option Int :=
  match pySplit time_str ':' with
  | [hs, ms] =>
    match pyParseInt hs, pyParseInt ms with
    | some hour, some minute =>
      if 0 ≤ hour ∧ hour ≤ 23 ∧ 0 ≤ minute ∧ minute ≤ 59 then
        let today_local := (nowUtc + utc_offset_seconds).fdiv 86400
        some (today_local * 86400 + hour * 3600 + minute * 60 - utc_offset_seconds)
      else none
    | _, _ => none
  | _ => none

/-! ### models.py : data model -/

/-- `models.ScheduleItem` (TypedDict). -/
structure ScheduleItem where
  time : String
  unixTime : Int
  warmBrightness : Int
  coolBrightness : Int
deriving DecidableEq, Repr

/-- `models.BrightnessScheduleEntry` (TypedDict). -/
structure BrightnessScheduleEntry where
  time : String
  unixTime : Int
  warmBrightness : Int
  coolBrightness : Int
  label : String
deriving DecidableEq, Repr

/-- Value inside a `brightnessSchedule` wire entry: Python `str | int`. -/
inductive EntryVal where
  | s (v : String)
  | i (v : Int)
deriving DecidableEq, Repr

/-- A wire schedule entry: Python `dict[str, str | int]`. -/
abbrev WireEntry := List (String × EntryVal)

/-- `models.ConfigValue = str | int | list[dict[str, str | int]]`. -/
inductive ConfigValue where
  | str (v : String)
  | int (v : Int)
  | list (v : List WireEntry)
deriving DecidableEq, Repr

/-- A wire config payload: Python `dict[str, ConfigValue]`. -/
abbrev WireConfig := List (String × ConfigValue)

-- `models.DaylightBrightness` default (warm, cool) pairs.
namespace DaylightBrightness

def SUNRISE : Int × Int := (75, 100)

def SUNSET : Int × Int := (75, 100)

def CIVIL_TWILIGHT_BEGIN : Int × Int := (25, 0)

def CIVIL_TWILIGHT_END : Int × Int := (100, 0)

def BED_TIME : Int × Int := (100, 0)

def NIGHT_TIME : Int × Int := (25, 0)

end DaylightBrightness

/-- `models.LightConfig.__init__` state: mode, free-form schedule and the
six optional named slots. -/
structure LightConfig where
  mode : String
  schedule : List ScheduleItem
  sunrise : Option ScheduleItem
  sunset : Option ScheduleItem
  civil_twilight_begin : Option ScheduleItem
  civil_twilight_end : Option ScheduleItem
  bed_time : Option ScheduleItem
  night_time : Option ScheduleItem
deriving DecidableEq, Repr

namespace LightConfig

def DEFAULT_MODE : String := "dayNight"

def MIN_SUNSET_TIME : String := "19:30"

def TWILIGHT_END_OFFSET : Int := 30

/-- `LightConfig(mode, schedule)`: constructor, all named slots `None`. -/
def init (mode : String) (schedule : List ScheduleItem) : LightConfig :=
  ⟨mode, schedule, none, none, none, none, none, none⟩

/-- `LightConfig.create_empty()`. -/
def create_empty : LightConfig := init DEFAULT_MODE []

/-- `LightConfig.STANDARD_LABELS`. -/
def STANDARD_LABELS : List String :=
  ["civil_twilight_begin", "sunrise", "sunset",
   "civil_twilight_end", "bed_time", "night_time"]

/-- `LightConfig.__create_or_update_schedule_item`: refresh time/instant,
preserving brightness of an existing item, or create with defaults. -/
def create_or_update_schedule_item (nowUtc : Int)
    (existing_item : Option ScheduleItem) (time : String)
    (timezone_offset : Int)
    (default_bright_warm default_bright_cool : Int) : Option ScheduleItem :=
  match existing_item with
  | some item =>
    match convert_to_unix_timestamp nowUtc time timezone_offset with
    | some u => some ⟨time, u, item.warmBrightness, item.coolBrightness⟩
    | none => none
  | none =>
    match convert_to_unix_timestamp nowUtc time timezone_offset with
    | some u => some ⟨time, u, default_bright_warm, default_bright_cool⟩
    | none => none

/-- `LightConfig.__enforce_minimum_time`: floor a time at a minimum,
comparing as minutes since midnight. -/
def enforce_minimum_time (time_str minimum_time : String) :
    Option (String × Bool) :=
  match strToInts time_str, strToInts minimum_time with
  | some time_parts, some min_parts =>
    match time_parts[0]?, time_parts[1]?, min_parts[0]?, min_parts[1]? with
    | some t0, some t1, some m0, some m1 =>
      if t0 * 60 + t1 < m0 * 60 + m1 then some (minimum_time, true)
      else some (time_str, false)
    | _, _, _, _ => none
  | _, _ => none

/-- `LightConfig.__adjust_twilight_end`: sunset plus `TWILIGHT_END_OFFSET`
minutes, re-rendered as "HH:mm" (no day rollover handling). -/
def adjust_twilight_end (sunset_time : String) : Option String :=
  match strToInts sunset_time with
  | some sunset_parts =>
    match sunset_parts[0]?, sunset_parts[1]? with
    | some p0, some p1 =>
      let total_minutes := p0 * 60 + p1 + TWILIGHT_END_OFFSET
      some (fmt2 (total_minutes.fdiv 60) ++ ":" ++ fmt2 (total_minutes.fmod 60))
    | _, _ => none
  | none => none

/-- `LightConfig.update_daylight_times`: floor the sunset, rederive the
twilight end only when the floor was applied, then merge the four daylight
slots preserving brightness. -/
def update_daylight_times (nowUtc : Int) (c : LightConfig)
    (sunrise sunset twilight_begin twilight_end : String)
    (timezone_offset : Int) : Option LightConfig :=
  match enforce_minimum_time sunset MIN_SUNSET_TIME with
  | none => none
  | some (adjusted_sunset, was_adjusted) =>
    match (if was_adjusted then adjust_twilight_end adjusted_sunset
           else some twilight_end) with
    | none => none
    | some adjusted_twilight_end =>
      match create_or_update_schedule_item nowUtc c.sunrise sunrise
          timezone_offset DaylightBrightness.SUNRISE.1
          DaylightBrightness.SUNRISE.2 with
      | none => none
      | some sr =>
        match create_or_update_schedule_item nowUtc c.sunset adjusted_sunset
            timezone_offset DaylightBrightness.SUNSET.1
            DaylightBrightness.SUNSET.2 with
        | none => none
        | some ss =>
          match create_or_update_schedule_item nowUtc c.civil_twilight_begin
              twilight_begin timezone_offset
              DaylightBrightness.CIVIL_TWILIGHT_BEGIN.1
              DaylightBrightness.CIVIL_TWILIGHT_BEGIN.2 with
          | none => none
          | some tb =>
            match create_or_update_schedule_item nowUtc c.civil_twilight_end
                adjusted_twilight_end timezone_offset
                DaylightBrightness.CIVIL_TWILIGHT_END.1
                DaylightBrightness.CIVIL_TWILIGHT_END.2 with
            | none => none
            | some te =>
              some { c with
                sunrise := some sr, sunset := some ss,
                civil_twilight_begin := some tb,
                civil_twilight_end := some te }

/-- Python `str(x)` over a wire entry value. -/
def pyStr : EntryVal → String
  | EntryVal.s v => v
  | EntryVal.i v => toString v

/-- Python `int(x)` over a wire entry value (`none` models `ValueError`). -/
def pyIntOf : EntryVal → Option Int
  | EntryVal.i v => some v
  | EntryVal.s v => pyParseInt v

/-- The `ScheduleItem(...)` construction inside `from_dict`'s loop:
`time=str(entry.get('time',''))`, `unixTime=int(entry.get('unixTime',0))`,
and the two brightness conversions. -/
def parseScheduleEntry (entry : WireEntry) : Option ScheduleItem :=
  match pyIntOf ((dictGet entry "unixTime").getD (EntryVal.i 0)),
        pyIntOf ((dictGet entry "warmBrightness").getD (EntryVal.i 0)),
        pyIntOf ((dictGet entry "coolBrightness").getD (EntryVal.i 0)) with
  | some u, some w, some cb =>
    some ⟨pyStr ((dictGet entry "time").getD (EntryVal.s "")), u, w, cb⟩
  | _, _, _ => none

/-- `setattr(config, label, item)` for a label drawn from
`STANDARD_LABELS` (identity on any other label). -/
def setSlot (c : LightConfig) (label : String) (item : ScheduleItem) :
    LightConfig :=
  if label = "civil_twilight_begin" then { c with civil_twilight_begin := some item }
  else if label = "sunrise" then { c with sunrise := some item }
  else if label = "sunset" then { c with sunset := some item }
  else if label = "civil_twilight_end" then { c with civil_twilight_end := some item }
  else if label = "bed_time" then { c with bed_time := some item }
  else if label = "night_time" then { c with night_time := some item }
  else c

/-- One iteration of `from_dict`'s entry loop: populate the named slot when
the entry bears a recognized string label, otherwise skip the entry. -/
def applyEntry (config : LightConfig) (entry : WireEntry) : Option LightConfig :=
  match dictGet entry "label" with
  | some (EntryVal.s label) =>
    if STANDARD_LABELS.contains label then
      match parseScheduleEntry entry with
      | some item => some (setSlot config label item)
      | none => none
    else some config
  | _ => some config

/-- `from_dict`'s loop over the `brightnessSchedule` array. -/
def applyEntries : LightConfig → List WireEntry → Option LightConfig
  | config, [] => some config
  | config, entry :: rest =>
    match applyEntry config entry with
    | some c1 => applyEntries c1 rest
    | none => none

/-- `LightConfig.from_dict(data)`.  `none` input models `data=None`; a
`none` result models an exception raised while converting entry fields. -/
def from_dict (data : Option WireConfig) : Option LightConfig :=
  match data with
  | none => some create_empty
  | some d =>
    if d.isEmpty then some create_empty
    else
      let mode_raw := (dictGet d "mode").getD (ConfigValue.str DEFAULT_MODE)
      let mode := match mode_raw with
        | ConfigValue.str s => s
        | _ => DEFAULT_MODE
      let config := init mode []
      match dictGet d "brightnessSchedule" with
      | some (ConfigValue.list bs) => applyEntries config bs
      | _ => some config

/-- The `BrightnessScheduleEntry(...)` built from a named slot item plus
its canonical label inside `build_brightness_schedule`. -/
def mkEntry (item : ScheduleItem) (label : String) : BrightnessScheduleEntry :=
  ⟨item.time, item.unixTime, item.warmBrightness, item.coolBrightness, label⟩

/-- Contribution of one named slot to the schedule array: one entry when
present, nothing when absent. -/
def optEntry (o : Option ScheduleItem) (label : String) :
    List BrightnessScheduleEntry :=
  match o with
  | some item => [mkEntry item label]
  | none => []

/-- The entry list collected by `build_brightness_schedule` before sorting,
in `field_label_map` iteration order. -/
def scheduleEntries (c : LightConfig) : List BrightnessScheduleEntry :=
  optEntry c.civil_twilight_begin "civil_twilight_begin" ++
  optEntry c.sunrise "sunrise" ++
  optEntry c.sunset "sunset" ++
  optEntry c.civil_twilight_end "civil_twilight_end" ++
  optEntry c.bed_time "bed_time" ++
  optEntry c.night_time "night_time"

/-- The sort key comparison `key=lambda e: e['unixTime']`. -/
def entryLE (a b : BrightnessScheduleEntry) : Bool :=
  decide (a.unixTime ≤ b.unixTime)

/-- `LightConfig.build_brightness_schedule()`: collect the present named
slots and sort by `unixTime` (Python's stable sort, modelled by a stable
merge sort). -/
def build_brightness_schedule (c : LightConfig) : List BrightnessScheduleEntry :=
  (scheduleEntries c).mergeSort entryLE

/-- Wire form of a schedule entry as serialized by `to_dict`. -/
def entryToWire (b : BrightnessScheduleEntry) : WireEntry :=
  [("time", EntryVal.s b.time), ("unixTime", EntryVal.i b.unixTime),
   ("warmBrightness", EntryVal.i b.warmBrightness),
   ("coolBrightness", EntryVal.i b.coolBrightness),
   ("label", EntryVal.s b.label)]

/-- `LightConfig.to_dict()`; `get_server_time()` is the explicit `nowUtc`. -/
def to_dict (nowUtc : Int) (c : LightConfig) : WireConfig :=
  [("mode", ConfigValue.str c.mode), ("serverTime", ConfigValue.int nowUtc),
   ("brightnessSchedule",
    ConfigValue.list ((build_brightness_schedule c).map entryToWire))]

end LightConfig

/-! ### lights_get_lambda/lambda_function.py : timezone fallback chain -/

/-- `models.GeolocationResponse` (fields used by the offset chain). -/
structure GeolocationResponse where
  status : String
  timezone : String
  offset : Int
deriving DecidableEq, Repr

/-- `get_timezone_offset(event)`: IP extraction plus geolocation lookup.
`ip` is `get_ip_from_event(event)`; `geolocate` is the
`get_geolocation_data` network call (`none` on failure or non-success). -/
def get_timezone_offset (ip : Option String)
    (geolocate : String → Option GeolocationResponse) : Option Int :=
  match ip with
  | none => none
  | some s =>
    if s = "" then none
    else
      match geolocate s with
      | none => none
      | some g => some g.offset

/-- `get_timezone_offset_with_cache(event, cached_config)`: IP geolocation,
then the cached integer offset from the stored config, then UTC (0). -/
def get_timezone_offset_with_cache (ip : Option String)
    (geolocate : String → Option GeolocationResponse)
    (cached_config : WireConfig) : Int :=
  match get_timezone_offset ip geolocate with
  | some ip_offset => ip_offset
  | none =>
    match dictGet cached_config "cached_timezone_offset" with
    | some (ConfigValue.int cached_offset) => cached_offset
    | _ => 0

/-! ### lights_post_lambda/lambda_function.py : write validation -/

def VALID_MODES : List String := ["dayNight", "scheduled", "demo"]

def REQUIRED_ENTRY_FIELDS : List String :=
  ["time", "warmBrightness", "coolBrightness", "label"]

/-- `validate_time_format(time_str)`: length 5, ':' at index 2, two integer
parts with hours 0-23 and minutes 0-59. -/
def validate_time_format (time_str : String) : Bool :=
  if time_str.toList.length ≠ 5 then false
  else
    match time_str.toList[2]? with
    | none => false
    | some c2 =>
      if c2 ≠ ':' then false
      else
        match pySplit time_str ':' with
        | [hs, ms] =>
          match pyParseInt hs, pyParseInt ms with
          | some h, some m =>
            decide (0 ≤ h) && decide (h ≤ 23) && decide (0 ≤ m) && decide (m ≤ 59)
          | _, _ => false
        | _ => false

/-- `REQUIRED_ENTRY_FIELDS - set(entry.keys())` (in canonical field order;
Python iterates the set in unspecified order). -/
def missingFields (entry : WireEntry) : List String :=
  REQUIRED_ENTRY_FIELDS.filter (fun f => (dictGet entry f).isNone)

/-- The per-entry time check: present, a string, and valid "HH:mm". -/
def timeFieldOk (entry : WireEntry) : Bool :=
  match dictGet entry "time" with
  | some (EntryVal.s t) => validate_time_format t
  | _ => false

/-- The per-entry brightness check: present, an integer, within [0, 100]. -/
def brightnessFieldOk (entry : WireEntry) (field : String) : Bool :=
  match dictGet entry field with
  | some (EntryVal.i v) => decide (0 ≤ v) && decide (v ≤ 100)
  | _ => false

/-- The per-entry label check: present, a string, non-empty. -/
def labelFieldOk (entry : WireEntry) : Bool :=
  match dictGet entry "label" with
  | some (EntryVal.s l) => decide (l ≠ "")
  | _ => false

/-- The checks `validate_unified_format` runs on schedule entry `i`,
returning the first failure's error message. -/
def validate_entry (i : Nat) (entry : WireEntry) : Option String :=
  if (missingFields entry).isEmpty = false then
    some ("brightnessSchedule[" ++ toString i ++ "] missing required fields: "
      ++ String.intercalate ", " (missingFields entry))
  else if timeFieldOk entry = false then
    some ("brightnessSchedule[" ++ toString i ++ "].time must be in HH:mm format")
  else if brightnessFieldOk entry "warmBrightness" = false then
    some ("brightnessSchedule[" ++ toString i
      ++ "].warmBrightness must be an integer between 0 and 100")
  else if brightnessFieldOk entry "coolBrightness" = false then
    some ("brightnessSchedule[" ++ toString i
      ++ "].coolBrightness must be an integer between 0 and 100")
  else if labelFieldOk entry = false then
    some ("brightnessSchedule[" ++ toString i ++ "].label must be a non-empty string")
  else none

/-- The `for i, entry in enumerate(schedule)` loop: first error wins. -/
def validate_schedule : Nat → List WireEntry → Option String
  | _, [] => none
  | i, entry :: rest =>
    match validate_entry i entry with
    | some err => some err
    | none => validate_schedule (i + 1) rest

/-- `validate_unified_format(body)`.  `.ok none` means valid, `.ok (some
msg)` a returned error message, `.error` a raised exception: Python's
`mode not in VALID_MODES` hashes `mode`, so a list-valued mode raises
`TypeError` instead of returning a message. -/
def validate_unified_format (body : WireConfig) : Except String (Option String) :=
  match dictGet body "mode" with
  | none => Except.ok (some "Missing required field: mode")
  | some (ConfigValue.list _) => Except.error "TypeError: unhashable type: list"
  | some mode =>
    if (match mode with
        | ConfigValue.str s => VALID_MODES.contains s
        | _ => false) = false then
      Except.ok (some ("Invalid mode: "
        ++ (match mode with
            | ConfigValue.str s => s
            | ConfigValue.int n => toString n
            | ConfigValue.list _ => "")
        ++ ". Must be one of: dayNight, scheduled, demo"))
    else
      match dictGet body "brightnessSchedule" with
      | none => Except.ok (some "Missing required field: brightnessSchedule")
      | some (ConfigValue.list schedule) => Except.ok (validate_schedule 0 schedule)
      | some _ => Except.ok (some "brightnessSchedule must be an array")

/-- The carry-forward step before the store write: any
`cached_timezone_offset` present in the previously stored blob is copied
into the accepted body. -/
def preserve_cached_offset (body : WireConfig) (store : Option WireConfig) :
    WireConfig :=
  match store with
  | some existing_config =>
    match dictGet existing_config "cached_timezone_offset" with
    | some v => dictSet body "cached_timezone_offset" v
    | none => body
  | none => body

/-- The POST `lambda_handler` after body parsing: method check, token
check, validation, carry-forward of `cached_timezone_offset` from the
stored blob, then the store write.  Returns the HTTP status code and the
store contents after the request (`store` is the S3 blob, `none` when
absent). -/
def post_lambda_handler (method : String) (token : Option String)
    (secret : String) (body : WireConfig) (store : Option WireConfig) :
    Int × Option WireConfig :=
  if method ≠ "POST" then (405, store)
  else if token ≠ some secret then (403, store)
  else
    match validate_unified_format body with
    | Except.error _ => (500, store)
    | Except.ok (some _) => (400, store)
    | Except.ok none =>
      let body2 := preserve_cached_offset body store
      (200, some body2)

/-! ### Specification-side predicate for the write contract

Used for the refinement comparison in the write-strictness claim. -/

/-- Modelled from the spec: "each schedule entry must supply `time` (valid
"HH:MM"), integer `warmBrightness`/`coolBrightness` in [0,100], and
non-empty `label`". -/
def specValidEntry (entry : WireEntry) : Bool :=
  timeFieldOk entry && brightnessFieldOk entry "warmBrightness" &&
  brightnessFieldOk entry "coolBrightness" && labelFieldOk entry

/-- Modelled from the spec: an accepted write payload has a recognized
mode, a `brightnessSchedule` array, and every entry valid. -/
def specValidPayload (body : WireConfig) : Bool :=
  (match dictGet body "mode" with
   | some (ConfigValue.str m) => VALID_MODES.contains m
   | _ => false) &&
  (match dictGet body "brightnessSchedule" with
   | some (ConfigValue.list es) => es.all specValidEntry
   | _ => false)

/-! ### Shared characterization lemmas -/

namespace LightConfig

/-- Characterizes a successful merge: the result carries the new time and
its converted instant, and brightness from the existing item when there is
one, from the defaults otherwise. -/
theorem create_or_update_some (nowUtc : Int) (ex : Option ScheduleItem)
    (t : String) (tz dw dc : Int) (item : ScheduleItem)
    (h : create_or_update_schedule_item nowUtc ex t tz dw dc = some item) :
    item.time = t ∧
    convert_to_unix_timestamp nowUtc t tz = some item.unixTime ∧
    item.warmBrightness = (match ex with
      | some e => e.warmBrightness
      | none => dw) ∧
    item.coolBrightness = (match ex with
      | some e => e.coolBrightness
      | none => dc) := by
  cases ex with
  | some e =>
    simp only [create_or_update_schedule_item] at h
    cases hc : convert_to_unix_timestamp nowUtc t tz with
    | none => rw [hc] at h; cases h
    | some u =>
      rw [hc] at h
      injection h with h1
      subst h1
      exact ⟨rfl, by simp [hc], rfl, rfl⟩
  | none =>
    simp only [create_or_update_schedule_item] at h
    cases hc : convert_to_unix_timestamp nowUtc t tz with
    | none => rw [hc] at h; cases h
    | some u =>
      rw [hc] at h
      injection h with h1
      subst h1
      exact ⟨rfl, by simp [hc], rfl, rfl⟩

/-- Characterizes a successful `update_daylight_times` run as its five
constituent steps. -/
theorem update_daylight_times_some (nowUtc : Int) (c : LightConfig)
    (sr ss tb te : String) (tz : Int) (c' : LightConfig)
    (h : update_daylight_times nowUtc c sr ss tb te tz = some c') :
    ∃ adj was ate isr iss itb ite,
      enforce_minimum_time ss MIN_SUNSET_TIME = some (adj, was) ∧
      (if was then adjust_twilight_end adj else some te) = some ate ∧
      create_or_update_schedule_item nowUtc c.sunrise sr tz 75 100 = some isr ∧
      create_or_update_schedule_item nowUtc c.sunset adj tz 75 100 = some iss ∧
      create_or_update_schedule_item nowUtc c.civil_twilight_begin tb tz 25 0
        = some itb ∧
      create_or_update_schedule_item nowUtc c.civil_twilight_end ate tz 100 0
        = some ite ∧
      c' = LightConfig.mk c.mode c.schedule (some isr) (some iss) (some itb)
             (some ite) c.bed_time c.night_time := by
  simp only [update_daylight_times] at h
  dsimp only [DaylightBrightness.SUNRISE, DaylightBrightness.SUNSET,
    DaylightBrightness.CIVIL_TWILIGHT_BEGIN,
    DaylightBrightness.CIVIL_TWILIGHT_END] at h
  cases henf : enforce_minimum_time ss MIN_SUNSET_TIME with
  | none => simp only [henf] at h; cases h
  | some p =>
    simp only [henf] at h
    obtain ⟨adj, was⟩ := p
    cases hate : (if was then adjust_twilight_end adj else some te) with
    | none => simp only [hate] at h; cases h
    | some ate =>
      simp only [hate] at h
      cases h1 : create_or_update_schedule_item nowUtc c.sunrise sr tz 75 100 with
      | none => simp only [h1] at h; cases h
      | some isr =>
        simp only [h1] at h
        cases h2 : create_or_update_schedule_item nowUtc c.sunset adj tz 75 100 with
        | none => simp only [h2] at h; cases h
        | some iss =>
          simp only [h2] at h
          cases h3 : create_or_update_schedule_item nowUtc c.civil_twilight_begin
              tb tz 25 0 with
          | none => simp only [h3] at h; cases h
          | some itb =>
            simp only [h3] at h
            cases h4 : create_or_update_schedule_item nowUtc c.civil_twilight_end
                ate tz 100 0 with
            | none => simp only [h4] at h; cases h
            | some ite =>
              simp only [h4] at h
              injection h with h5
              exact ⟨adj, was, ate, isr, iss, itb, ite, rfl, hate, rfl, h2,
                rfl, h4, h5.symm⟩

end LightConfig

/-! ### Claim theorems: merge engine and policy (C1-C4) -/

/-- Claim C1: merging an existing `ScheduleItem` with brightness `(w, c)`
under any new time string and timezone offset returns an item whose
`warmBrightness` is exactly `w` and whose `coolBrightness` is exactly `c`,
regardless of the new time. -/
theorem brightness_preservation (nowUtc : Int) (existing : ScheduleItem)
    (newTime : String) (tz dw dc : Int) (item : ScheduleItem)
    (h : LightConfig.create_or_update_schedule_item nowUtc (some existing)
          newTime tz dw dc = some item) :
    item.warmBrightness = existing.warmBrightness ∧
    item.coolBrightness = existing.coolBrightness := by
  obtain ⟨-, -, hw, hc⟩ :=
    LightConfig.create_or_update_some nowUtc (some existing) newTime tz dw dc
      item h
  exact ⟨hw, hc⟩

/-- Witness for C1 at a concrete input: merging the existing item
`07:00 (50, 80)` with new time `12:00` preserves brightness `(50, 80)`. -/
theorem brightness_preservation_witness :
    (ScheduleItem.mk "12:00" 43200 50 80).warmBrightness =
      (ScheduleItem.mk "07:00" 25200 50 80).warmBrightness ∧
    (ScheduleItem.mk "12:00" 43200 50 80).coolBrightness =
      (ScheduleItem.mk "07:00" 25200 50 80).coolBrightness :=
  brightness_preservation 0 (ScheduleItem.mk "07:00" 25200 50 80) "12:00" 0
    75 100 (ScheduleItem.mk "12:00" 43200 50 80) (by decide)

/-- Claim C2: merging with no existing item yields the new time, its
converted instant and exactly the supplied default brightness pair; and
`update_daylight_times` uses the defaults sunrise `(75,100)`, sunset
`(75,100)`, civil twilight begin `(25,0)`, civil twilight end `(100,0)`. -/
theorem default_creation (nowUtc : Int) (t : String) (tz dw dc u : Int)
    (hc : convert_to_unix_timestamp nowUtc t tz = some u) :
    LightConfig.create_or_update_schedule_item nowUtc none t tz dw dc =
      some (ScheduleItem.mk t u dw dc) ∧
    (∀ (c : LightConfig) (sr ss tb te : String) (c' : LightConfig),
      c.sunrise = none → c.sunset = none → c.civil_twilight_begin = none →
      c.civil_twilight_end = none →
      LightConfig.update_daylight_times nowUtc c sr ss tb te tz = some c' →
      (c'.sunrise.map fun i => (i.warmBrightness, i.coolBrightness))
          = some (75, 100) ∧
      (c'.sunset.map fun i => (i.warmBrightness, i.coolBrightness))
          = some (75, 100) ∧
      (c'.civil_twilight_begin.map fun i => (i.warmBrightness, i.coolBrightness))
          = some (25, 0) ∧
      (c'.civil_twilight_end.map fun i => (i.warmBrightness, i.coolBrightness))
          = some (100, 0)) := by
  constructor
  · simp only [LightConfig.create_or_update_schedule_item, hc]
  · intro c sr ss tb te c' hsr hss htb hte h
    obtain ⟨adj, was, ate, isr, iss, itb, ite, -, -, h1, h2, h3, h4, hc'⟩ :=
      LightConfig.update_daylight_times_some nowUtc c sr ss tb te tz c' h
    rw [hsr] at h1
    rw [hss] at h2
    rw [htb] at h3
    rw [hte] at h4
    obtain ⟨-, -, hw1, hb1⟩ := LightConfig.create_or_update_some _ _ _ _ _ _ _ h1
    obtain ⟨-, -, hw2, hb2⟩ := LightConfig.create_or_update_some _ _ _ _ _ _ _ h2
    obtain ⟨-, -, hw3, hb3⟩ := LightConfig.create_or_update_some _ _ _ _ _ _ _ h3
    obtain ⟨-, -, hw4, hb4⟩ := LightConfig.create_or_update_some _ _ _ _ _ _ _ h4
    subst hc'
    simp_all

/-- Witness for C2 at a concrete input: with no existing item, time
`06:45` at offset 0 creates `(06:45, 24300, 75, 100)` from defaults
`(75, 100)`, and a fresh `update_daylight_times` run applies the four
documented default pairs. -/
theorem default_creation_witness :
    convert_to_unix_timestamp 0 "06:45" 0 = some 24300 ∧
    (LightConfig.create_or_update_schedule_item 0 none "06:45" 0 75 100 =
      some (ScheduleItem.mk "06:45" 24300 75 100) ∧ True) := by
  refine ⟨by decide, ?_, trivial⟩
  exact (default_creation 0 "06:45" 0 75 100 24300 (by decide)).1

/-- Claim C3: in `update_daylight_times` the stored civil-twilight-end time
is the adjusted-sunset-plus-30-minutes rendering exactly when the sunset
floor was applied, and the upstream twilight-end string unmodified
otherwise. -/
theorem twilight_end_conditional (nowUtc : Int) (c : LightConfig)
    (sr ss tb te : String) (tz : Int) (adj : String) (was : Bool)
    (c' : LightConfig)
    (henf : LightConfig.enforce_minimum_time ss LightConfig.MIN_SUNSET_TIME
      = some (adj, was))
    (h : LightConfig.update_daylight_times nowUtc c sr ss tb te tz = some c') :
    ∃ item, c'.civil_twilight_end = some item ∧
      (was = true → LightConfig.adjust_twilight_end adj = some item.time) ∧
      (was = false → item.time = te) := by
  obtain ⟨adj2, was2, ate, isr, iss, itb, ite, henf2, hate, h1, h2, h3, h4, hc'⟩ :=
    LightConfig.update_daylight_times_some nowUtc c sr ss tb te tz c' h
  rw [henf] at henf2
  injection henf2 with hp
  injection hp with hadj hwas
  subst hadj
  subst hwas
  obtain ⟨htime, -, -, -⟩ := LightConfig.create_or_update_some _ _ _ _ _ _ _ h4
  refine ⟨ite, by rw [hc'], ?_, ?_⟩
  · intro hw
    rw [hw] at hate
    simp only [if_true] at hate
    rw [hate, htime]
  · intro hw
    rw [hw] at hate
    simp only [Bool.false_eq_true, if_false] at hate
    injection hate with hte
    rw [htime, hte]

/-- Witness for C3 at the claim's concrete input: sunset `18:00` (floored
to `19:30`, adjusted) with upstream twilight end `18:30` stores civil
twilight end `20:00`, not `18:30`. -/
theorem twilight_end_conditional_witness :
    ∃ item,
      (LightConfig.mk "dayNight" [] (some (ScheduleItem.mk "06:00" 21600 75 100))
        (some (ScheduleItem.mk "19:30" 70200 75 100))
        (some (ScheduleItem.mk "05:30" 19800 25 0))
        (some (ScheduleItem.mk "20:00" 72000 100 0)) none
        none).civil_twilight_end = some item ∧
      (true = true → LightConfig.adjust_twilight_end "19:30" = some item.time) ∧
      (true = false → item.time = "18:30") :=
  twilight_end_conditional 0 LightConfig.create_empty "06:00" "18:00" "05:30"
    "18:30" 0 "19:30" true _ (by decide) (by decide)

/-- A passing `validate_time_format` check yields two integer-parsing
colon-separated parts within the clock ranges, and a successful
`strToInts` parse. -/
theorem validate_time_format_parts (s : String)
    (h : validate_time_format s = true) :
    ∃ hs ms hv mv, pySplit s ':' = [hs, ms] ∧ pyParseInt hs = some hv ∧
      pyParseInt ms = some mv ∧ 0 ≤ hv ∧ hv ≤ 23 ∧ 0 ≤ mv ∧ mv ≤ 59 ∧
      strToInts s = some [hv, mv] := by
  unfold validate_time_format at h
  by_cases h5 : s.toList.length ≠ 5
  · rw [if_pos h5] at h; exact Bool.noConfusion h
  · rw [if_neg h5] at h
    cases h2 : s.toList[2]? with
    | none => simp only [h2] at h; exact Bool.noConfusion h
    | some c2 =>
      simp only [h2] at h
      by_cases hc2 : c2 ≠ ':'
      · rw [if_pos hc2] at h; exact Bool.noConfusion h
      · rw [if_neg hc2] at h
        cases hsp : pySplit s ':' with
        | nil => simp only [hsp] at h; exact Bool.noConfusion h
        | cons a t =>
          cases t with
          | nil => simp only [hsp] at h; exact Bool.noConfusion h
          | cons b t2 =>
            cases t2 with
            | cons x t3 => simp only [hsp] at h; exact Bool.noConfusion h
            | nil =>
              simp only [hsp] at h
              cases hph : pyParseInt a with
              | none => simp only [hph] at h; exact Bool.noConfusion h
              | some hv =>
                cases hpm : pyParseInt b with
                | none => simp only [hph, hpm] at h; exact Bool.noConfusion h
                | some mv =>
                  simp only [hph, hpm] at h
                  simp only [Bool.and_eq_true, decide_eq_true_eq] at h
                  obtain ⟨⟨⟨hh0, hh23⟩, hm0⟩, hm59⟩ := h
                  refine ⟨a, b, hv, mv, rfl, hph, hpm, hh0, hh23, hm0, hm59, ?_⟩
                  simp only [strToInts, hsp]
                  simp [List.mapM, List.mapM.loop, hph, hpm]

/-- Claim C4: for well-formed "HH:MM" times, `enforce_minimum_time`
compares minutes since midnight, returning `(floor, true)` exactly when
the time is strictly earlier than the floor and `(time, false)` otherwise
(equality is not adjusted), and re-applying it to its own output returns
that time with `was_adjusted = false`. -/
theorem sunset_floor_and_idempotence (t f : String)
    (ht : validate_time_format t = true) (hf : validate_time_format f = true) :
    ∃ th tm fh fm : Int,
      strToInts t = some [th, tm] ∧ strToInts f = some [fh, fm] ∧
      LightConfig.enforce_minimum_time t f =
        some (if th * 60 + tm < fh * 60 + fm then (f, true) else (t, false)) ∧
      LightConfig.enforce_minimum_time
          (if th * 60 + tm < fh * 60 + fm then f else t) f =
        some ((if th * 60 + tm < fh * 60 + fm then f else t), false) := by
  obtain ⟨ths, tms, th, tm, -, -, -, -, -, -, -, hts⟩ :=
    validate_time_format_parts t ht
  obtain ⟨fhs, fms, fh, fm, -, -, -, -, -, -, -, hfs⟩ :=
    validate_time_format_parts f hf
  refine ⟨th, tm, fh, fm, hts, hfs, ?_, ?_⟩
  · simp only [LightConfig.enforce_minimum_time, hts, hfs]
    by_cases hlt : th * 60 + tm < fh * 60 + fm
    · simp [hlt]
    · simp [hlt]
  · by_cases hlt : th * 60 + tm < fh * 60 + fm
    · rw [if_pos hlt]
      simp only [LightConfig.enforce_minimum_time, hfs]
      simp
    · rw [if_neg hlt]
      simp only [LightConfig.enforce_minimum_time, hts, hfs]
      simp [hlt]

/-- Witness for C4 at the spec's concrete inputs `18:00` and floor
`19:30`: the floor is applied and a second application is a no-op. -/
theorem sunset_floor_and_idempotence_witness :
    ∃ th tm fh fm : Int,
      strToInts "18:00" = some [th, tm] ∧ strToInts "19:30" = some [fh, fm] ∧
      LightConfig.enforce_minimum_time "18:00" "19:30" =
        some (if th * 60 + tm < fh * 60 + fm then ("19:30", true)
              else ("18:00", false)) ∧
      LightConfig.enforce_minimum_time
          (if th * 60 + tm < fh * 60 + fm then "19:30" else "18:00") "19:30" =
        some ((if th * 60 + tm < fh * 60 + fm then "19:30" else "18:00"),
              false) :=
  sunset_floor_and_idempotence "18:00" "19:30" (by decide) (by decide)

/-! ### Claim C5: mode handling in from_dict -/

namespace LightConfig

/-- `setSlot` never touches the mode field. -/
theorem setSlot_mode (c : LightConfig) (l : String) (it : ScheduleItem) :
    (setSlot c l it).mode = c.mode := by
  unfold setSlot
  split_ifs <;> rfl

/-- One entry-loop step never touches the mode field. -/
theorem applyEntry_mode (c c1 : LightConfig) (e : WireEntry)
    (h : applyEntry c e = some c1) : c1.mode = c.mode := by
  unfold applyEntry at h
  split at h
  · split at h
    · split at h
      · injection h with h1
        rw [← h1, setSlot_mode]
      · cases h
    · injection h with h1
      rw [← h1]
  · injection h with h1
    rw [← h1]

/-- The entry loop never touches the mode field. -/
theorem applyEntries_mode : ∀ (es : List WireEntry) (c c1 : LightConfig),
    applyEntries c es = some c1 → c1.mode = c.mode
  | [], c, c1, h => by
    unfold applyEntries at h
    injection h with h1
    rw [h1]
  | e :: rest, c, c1, h => by
    unfold applyEntries at h
    cases he : applyEntry c e with
    | none => rw [he] at h; cases h
    | some c2 =>
      rw [he] at h
      rw [applyEntries_mode rest c2 c1 h, applyEntry_mode c c2 e he]

end LightConfig

/-- Modelled from the amended claim: the mode `from_dict` keeps is the
payload's mode value when that value is a string, and the default
"dayNight" when the payload is absent/empty or the mode field is absent
or not a string. -/
def modeOfPayload (d : Option WireConfig) : String :=
  match d with
  | none => LightConfig.DEFAULT_MODE
  | some dd =>
    match dictGet dd "mode" with
    | some (ConfigValue.str s) => s
    | _ => LightConfig.DEFAULT_MODE

/-- Counterexample to claim C5 as stated: the wire payload with the
unrecognized string mode "garbage" parses to mode "garbage", not to the
default "dayNight" the claim requires. -/
theorem mode_fallback_counterexample :
    (LightConfig.from_dict (some [("mode", ConfigValue.str "garbage")])).map
        LightConfig.mode = some "garbage" ∧
    ("garbage" ∈ VALID_MODES) = False ∧
    (LightConfig.from_dict (some [("mode", ConfigValue.str "garbage")])).map
        LightConfig.mode ≠ some "dayNight" := by
  refine ⟨by decide, by simp [VALID_MODES], by decide⟩

/-- Claim C5 as amended: `from_dict` falls back to the default mode
"dayNight" exactly when the payload is absent or empty, the mode field is
absent, or the mode value is not a string; any string mode value is kept
verbatim, recognized or not. -/
theorem mode_fallback (d : Option WireConfig) (cfg : LightConfig)
    (h : LightConfig.from_dict d = some cfg) :
    cfg.mode = modeOfPayload d := by
  cases d with
  | none =>
    simp only [LightConfig.from_dict] at h
    injection h with h1
    rw [← h1]
    rfl
  | some dd =>
    simp only [LightConfig.from_dict] at h
    by_cases hemp : dd.isEmpty
    · rw [if_pos hemp] at h
      injection h with h1
      rw [← h1]
      rw [List.isEmpty_iff.mp hemp]
      rfl
    · rw [if_neg hemp] at h
      have hmode : ∀ (c2 : LightConfig), c2.mode =
          (match (dictGet dd "mode").getD (ConfigValue.str LightConfig.DEFAULT_MODE) with
           | ConfigValue.str s => s
           | _ => LightConfig.DEFAULT_MODE) →
          c2.mode = modeOfPayload (some dd) := by
        intro c2 hc2
        rw [hc2]
        cases hm : dictGet dd "mode" with
        | none => simp [modeOfPayload, hm]
        | some v => cases v <;> simp [modeOfPayload, hm]
      cases hbs : dictGet dd "brightnessSchedule" with
      | none =>
        simp only [hbs] at h
        injection h with h1
        exact hmode cfg (by rw [← h1]; rfl)
      | some bv =>
        cases bv with
        | str sv =>
          simp only [hbs] at h
          injection h with h1
          exact hmode cfg (by rw [← h1]; rfl)
        | int iv =>
          simp only [hbs] at h
          injection h with h1
          exact hmode cfg (by rw [← h1]; rfl)
        | list bs =>
          simp only [hbs] at h
          exact hmode cfg (by rw [LightConfig.applyEntries_mode bs _ cfg h]; rfl)

/-- Witness for the amended C5 at a concrete input: the unrecognized
string mode "garbage" is kept verbatim. -/
theorem mode_fallback_witness :
    (LightConfig.mk "garbage" [] none none none none none none).mode =
      modeOfPayload (some [("mode", ConfigValue.str "garbage")]) :=
  mode_fallback (some [("mode", ConfigValue.str "garbage")])
    (LightConfig.mk "garbage" [] none none none none none none) (by decide)

/-! ### Claim C9: timezone-offset fallback chain -/

/-- Claim C9: the resolved UTC offset is the geolocation result's offset
when the IP lookup succeeds; otherwise the cached integer
`cached_timezone_offset` from the stored config when present; otherwise 0.
In particular a cached 18000 is returned on geolocation failure, and 0
when both are absent. -/
theorem timezone_fallback_chain (ip : Option String)
    (geolocate : String → Option GeolocationResponse) (cfg : WireConfig) :
    (∀ s g, ip = some s → s ≠ "" → geolocate s = some g →
      get_timezone_offset_with_cache ip geolocate cfg = g.offset) ∧
    (get_timezone_offset ip geolocate = none →
      (∀ v, dictGet cfg "cached_timezone_offset" = some (ConfigValue.int v) →
        get_timezone_offset_with_cache ip geolocate cfg = v) ∧
      (dictGet cfg "cached_timezone_offset" = none →
        get_timezone_offset_with_cache ip geolocate cfg = 0)) := by
  refine ⟨?_, ?_⟩
  · intro s g hip hs hg
    subst hip
    unfold get_timezone_offset_with_cache get_timezone_offset
    simp only [if_neg hs, hg]
  · intro hnone
    constructor
    · intro v hv
      unfold get_timezone_offset_with_cache
      simp only [hnone, hv]
    · intro hv
      unfold get_timezone_offset_with_cache
      simp only [hnone, hv]

/-- Witness for C9 at the spec's concrete inputs: with geolocation failing
and cached offset 18000 the result is 18000; with both absent it is 0. -/
theorem timezone_fallback_chain_witness :
    (get_timezone_offset none (fun _ => none) = none ∧
      get_timezone_offset_with_cache none (fun _ => none)
        [("cached_timezone_offset", ConfigValue.int 18000)] = 18000) ∧
    (get_timezone_offset none (fun _ => none) = none ∧
      get_timezone_offset_with_cache none (fun _ => none) [] = 0) := by
  constructor
  · refine ⟨rfl, ?_⟩
    exact ((timezone_fallback_chain none (fun _ => none)
      [("cached_timezone_offset", ConfigValue.int 18000)]).2 rfl).1 18000 (by decide)
  · refine ⟨rfl, ?_⟩
    exact ((timezone_fallback_chain none (fun _ => none) []).2 rfl).2 (by decide)

/-! ### Claim C10: write strictness and atomicity -/

/-- A passing time check implies the time field is present. -/
theorem timeFieldOk_present (e : WireEntry) (h : timeFieldOk e = true) :
    (dictGet e "time").isNone = false := by
  unfold timeFieldOk at h
  cases hd : dictGet e "time" with
  | none => rw [hd] at h; exact Bool.noConfusion h
  | some v => rfl

/-- A passing brightness check implies the field is present. -/
theorem brightnessFieldOk_present (e : WireEntry) (f : String)
    (h : brightnessFieldOk e f = true) : (dictGet e f).isNone = false := by
  unfold brightnessFieldOk at h
  cases hd : dictGet e f with
  | none => rw [hd] at h; exact Bool.noConfusion h
  | some v => rfl

/-- A passing label check implies the label field is present. -/
theorem labelFieldOk_present (e : WireEntry) (h : labelFieldOk e = true) :
    (dictGet e "label").isNone = false := by
  unfold labelFieldOk at h
  cases hd : dictGet e "label" with
  | none => rw [hd] at h; exact Bool.noConfusion h
  | some v => rfl

/-- The source's per-entry check passes exactly when the spec's per-entry
validity predicate holds. -/
theorem validate_entry_none_iff (i : Nat) (e : WireEntry) :
    validate_entry i e = none ↔ specValidEntry e = true := by
  constructor
  · intro h
    unfold validate_entry at h
    split_ifs at h with h1 h2 h3 h4 h5
    simp only [Bool.not_eq_false] at h2 h3 h4 h5
    simp [specValidEntry, h2, h3, h4, h5]
  · intro h
    unfold specValidEntry at h
    simp only [Bool.and_eq_true] at h
    obtain ⟨⟨⟨htime, hwarm⟩, hcool⟩, hlabel⟩ := h
    have hmiss : missingFields e = [] := by
      unfold missingFields REQUIRED_ENTRY_FIELDS
      simp [List.filter_cons, timeFieldOk_present e htime,
        brightnessFieldOk_present e "warmBrightness" hwarm,
        brightnessFieldOk_present e "coolBrightness" hcool,
        labelFieldOk_present e hlabel]
    simp [validate_entry, hmiss, htime, hwarm, hcool, hlabel]

/-- The source's schedule loop accepts exactly when every entry satisfies
the spec's per-entry validity predicate (at any starting index). -/
theorem validate_schedule_none_iff : ∀ (i : Nat) (es : List WireEntry),
    validate_schedule i es = none ↔ es.all specValidEntry = true
  | _, [] => by simp [validate_schedule]
  | i, e :: rest => by
    unfold validate_schedule
    cases hv : validate_entry i e with
    | some err =>
      have he : specValidEntry e = false := by
        cases hb : specValidEntry e
        · rfl
        · rw [(validate_entry_none_iff i e).mpr hb] at hv
          exact Option.noConfusion hv
      simp [List.all_cons, he]
    | none =>
      have he : specValidEntry e = true := (validate_entry_none_iff i e).mp hv
      simp [List.all_cons, he, validate_schedule_none_iff (i + 1) rest]

/-- The source's payload validation accepts exactly the spec-valid
payloads. -/
theorem validate_ok_iff (body : WireConfig) :
    validate_unified_format body = Except.ok none ↔
    specValidPayload body = true := by
  unfold validate_unified_format specValidPayload
  cases hm : dictGet body "mode" with
  | none => simp
  | some v =>
    cases v with
    | list l => simp
    | int n => simp
    | str s =>
      by_cases hc : VALID_MODES.contains s
      · simp only [hc, Bool.true_eq_false, if_false, Bool.true_and]
        cases hbs : dictGet body "brightnessSchedule" with
        | none => simp
        | some bv =>
          cases bv with
          | str sv => simp
          | int iv => simp
          | list es =>
            simp only [Except.ok.injEq]
            exact validate_schedule_none_iff 0 es
      · have hmem : s ∉ VALID_MODES := by simpa using hc
        simp [hmem]

/-- Every error message produced for schedule entry `i` names that entry's
index: it extends "brightnessSchedule[" followed by the index. -/
theorem validate_entry_msg (i : Nat) (e : WireEntry) (err : String)
    (h : validate_entry i e = some err) :
    ∃ suffix, err = "brightnessSchedule[" ++ toString i ++ suffix := by
  unfold validate_entry at h
  split_ifs at h
  · injection h with h1
    exact ⟨"] missing required fields: " ++ String.intercalate ", " (missingFields e),
      by rw [← h1]; exact String.append_assoc _ _ _⟩
  · injection h with h1
    exact ⟨"].time must be in HH:mm format", by rw [← h1]⟩
  · injection h with h1
    exact ⟨"].warmBrightness must be an integer between 0 and 100", by rw [← h1]⟩
  · injection h with h1
    exact ⟨"].coolBrightness must be an integer between 0 and 100", by rw [← h1]⟩
  · injection h with h1
    exact ⟨"].label must be a non-empty string", by rw [← h1]⟩

/-- Counterexample to claim C10 as stated: the payload whose mode is the
(unrecognized) empty array fails validation, yet the handler reports a
500 internal error, not a 400 validation error naming a field, because
Python's `mode not in VALID_MODES` membership test hashes the mode and
raises `TypeError` on a list. The store is still left unchanged. -/
theorem write_strictness_counterexample :
    post_lambda_handler "POST" (some "tok") "tok"
        [("mode", ConfigValue.list []),
         ("brightnessSchedule", ConfigValue.list [])]
        (some [("mode", ConfigValue.str "demo")]) =
      (500, some [("mode", ConfigValue.str "demo")]) ∧
    validate_unified_format
        [("mode", ConfigValue.list []),
         ("brightnessSchedule", ConfigValue.list [])] =
      Except.error "TypeError: unhashable type: list" ∧
    specValidPayload
        [("mode", ConfigValue.list []),
         ("brightnessSchedule", ConfigValue.list [])] = false :=
  ⟨rfl, rfl, rfl⟩

/-- Claim C10 as amended: with method POST and a matching token, the write
is accepted exactly when the payload is spec-valid — every spec-valid
payload gets status 200 and the validated body (with any carried-forward
`cached_timezone_offset`) written to the store; any payload that fails
validation with a message is rejected with status 400 and the store
unchanged; a list-valued mode raises internally, is rejected with status
500, and likewise leaves the store unchanged; entry-level error messages
name the offending entry's index. -/
theorem write_strictness (secret : String) (body : WireConfig)
    (store : Option WireConfig) :
    (∀ err, validate_unified_format body = Except.ok (some err) →
      post_lambda_handler "POST" (some secret) secret body store = (400, store)) ∧
    (∀ ex, validate_unified_format body = Except.error ex →
      post_lambda_handler "POST" (some secret) secret body store = (500, store)) ∧
    ((post_lambda_handler "POST" (some secret) secret body store).2 ≠ store →
      validate_unified_format body = Except.ok none ∧
      (post_lambda_handler "POST" (some secret) secret body store).1 = 200) ∧
    (validate_unified_format body = Except.ok none ↔
      specValidPayload body = true) ∧
    (∀ i e err, validate_entry i e = some err →
      ∃ suffix, err = "brightnessSchedule[" ++ toString i ++ suffix) ∧
    (validate_unified_format body = Except.ok none →
      post_lambda_handler "POST" (some secret) secret body store =
        (200, some (preserve_cached_offset body store))) := by
  refine ⟨?_, ?_, ?_, validate_ok_iff body, validate_entry_msg, ?_⟩
  · intro err hv
    unfold post_lambda_handler
    rw [if_neg (by simp), if_neg (by simp)]
    simp only [hv]
  · intro ex hv
    unfold post_lambda_handler
    rw [if_neg (by simp), if_neg (by simp)]
    simp only [hv]
  · intro hchange
    cases hv : validate_unified_format body with
    | error ex =>
      exfalso
      apply hchange
      unfold post_lambda_handler
      rw [if_neg (by simp), if_neg (by simp)]
      simp only [hv]
    | ok o =>
      cases o with
      | some err =>
        exfalso
        apply hchange
        unfold post_lambda_handler
        rw [if_neg (by simp), if_neg (by simp)]
        simp only [hv]
      | none =>
        refine ⟨rfl, ?_⟩
        unfold post_lambda_handler
        rw [if_neg (by simp), if_neg (by simp)]
        simp only [hv]
  · intro hv
    unfold post_lambda_handler
    rw [if_neg (by simp), if_neg (by simp)]
    simp only [hv]

/-- Witness for the amended C10 at concrete inputs: an out-of-range
brightness is rejected with a 400 and the store is unchanged, and a valid
payload is accepted with a 200 and written to the store. -/
theorem write_strictness_witness :
    (post_lambda_handler "POST" (some "tok") "tok"
        [("mode", ConfigValue.str "dayNight"),
         ("brightnessSchedule", ConfigValue.list
           [[("time", EntryVal.s "10:00"), ("warmBrightness", EntryVal.i 50),
             ("coolBrightness", EntryVal.i 101), ("label", EntryVal.s "x")]])]
        (some [("mode", ConfigValue.str "demo")]) =
      (400, some [("mode", ConfigValue.str "demo")])) ∧
    (post_lambda_handler "POST" (some "tok") "tok"
        [("mode", ConfigValue.str "dayNight"),
         ("brightnessSchedule", ConfigValue.list
           [[("time", EntryVal.s "10:00"), ("warmBrightness", EntryVal.i 50),
             ("coolBrightness", EntryVal.i 90), ("label", EntryVal.s "x")]])]
        none =
      (200, some [("mode", ConfigValue.str "dayNight"),
         ("brightnessSchedule", ConfigValue.list
           [[("time", EntryVal.s "10:00"), ("warmBrightness", EntryVal.i 50),
             ("coolBrightness", EntryVal.i 90), ("label", EntryVal.s "x")]])])) :=
  ⟨(write_strictness "tok"
      [("mode", ConfigValue.str "dayNight"),
       ("brightnessSchedule", ConfigValue.list
         [[("time", EntryVal.s "10:00"), ("warmBrightness", EntryVal.i 50),
           ("coolBrightness", EntryVal.i 101), ("label", EntryVal.s "x")]])]
      (some [("mode", ConfigValue.str "demo")])).1
    "brightnessSchedule[0].coolBrightness must be an integer between 0 and 100"
    (by rfl),
   (write_strictness "tok"
      [("mode", ConfigValue.str "dayNight"),
       ("brightnessSchedule", ConfigValue.list
         [[("time", EntryVal.s "10:00"), ("warmBrightness", EntryVal.i 50),
           ("coolBrightness", EntryVal.i 90), ("label", EntryVal.s "x")]])]
      none).2.2.2.2.2 (by rfl)⟩

/-! ### Infrastructure for the round-trip, label-drop and sort claims -/

namespace LightConfig

/-- Uniform read access to the six named slots by label (`getattr`). -/
def getSlot (c : LightConfig) (label : String) : Option ScheduleItem :=
  if label = "civil_twilight_begin" then c.civil_twilight_begin
  else if label = "sunrise" then c.sunrise
  else if label = "sunset" then c.sunset
  else if label = "civil_twilight_end" then c.civil_twilight_end
  else if label = "bed_time" then c.bed_time
  else if label = "night_time" then c.night_time
  else none

/-- Whether a wire entry bears the recognized label `l`. -/
def matchesLabel (e : WireEntry) (l : String) : Bool :=
  match dictGet e "label" with
  | some (EntryVal.s lab) => lab == l && STANDARD_LABELS.contains lab
  | _ => false

/-- Whether `from_dict`'s loop skips an entry outright (no string label,
or a label outside the recognized six). -/
def entrySkipped (e : WireEntry) : Bool :=
  match dictGet e "label" with
  | some (EntryVal.s lab) => !(STANDARD_LABELS.contains lab)
  | _ => true

/-- The last entry of `es` bearing the recognized label `l`, if any
(later entries win, like repeated `setattr`). -/
def lastMatching (es : List WireEntry) (l : String) : Option WireEntry :=
  match es with
  | [] => none
  | e :: rest =>
    match lastMatching rest l with
    | some e2 => some e2
    | none => if matchesLabel e l then some e else none

/-- A freshly constructed config has no named slots. -/
theorem getSlot_init (mode : String) (sch : List ScheduleItem) (l : String) :
    getSlot (init mode sch) l = none := by
  unfold getSlot init
  split_ifs <;> rfl

/-- Membership in the literal label list, as a disjunction. -/
theorem mem_STANDARD_LABELS (l : String) (hl : l ∈ STANDARD_LABELS) :
    l = "civil_twilight_begin" ∨ l = "sunrise" ∨ l = "sunset" ∨
    l = "civil_twilight_end" ∨ l = "bed_time" ∨ l = "night_time" := by
  simpa [STANDARD_LABELS] using hl

/-- `setSlot` evaluated at the literal label "civil_twilight_begin". -/
theorem setSlot_eval_civil_twilight_begin (c : LightConfig) (it : ScheduleItem) :
    setSlot c "civil_twilight_begin" it = { c with civil_twilight_begin := some it } := by
  unfold setSlot
  rw [if_pos rfl]

/-- `getSlot` evaluated at the literal label "civil_twilight_begin". -/
theorem getSlot_eval_civil_twilight_begin (c : LightConfig) :
    getSlot c "civil_twilight_begin" = c.civil_twilight_begin := by
  unfold getSlot
  rw [if_pos rfl]

/-- `setSlot` evaluated at the literal label "sunrise". -/
theorem setSlot_eval_sunrise (c : LightConfig) (it : ScheduleItem) :
    setSlot c "sunrise" it = { c with sunrise := some it } := by
  unfold setSlot
  rw [if_neg (by decide), if_pos rfl]

/-- `getSlot` evaluated at the literal label "sunrise". -/
theorem getSlot_eval_sunrise (c : LightConfig) :
    getSlot c "sunrise" = c.sunrise := by
  unfold getSlot
  rw [if_neg (by decide), if_pos rfl]

/-- `setSlot` evaluated at the literal label "sunset". -/
theorem setSlot_eval_sunset (c : LightConfig) (it : ScheduleItem) :
    setSlot c "sunset" it = { c with sunset := some it } := by
  unfold setSlot
  rw [if_neg (by decide), if_neg (by decide), if_pos rfl]

/-- `getSlot` evaluated at the literal label "sunset". -/
theorem getSlot_eval_sunset (c : LightConfig) :
    getSlot c "sunset" = c.sunset := by
  unfold getSlot
  rw [if_neg (by decide), if_neg (by decide), if_pos rfl]

/-- `setSlot` evaluated at the literal label "civil_twilight_end". -/
theorem setSlot_eval_civil_twilight_end (c : LightConfig) (it : ScheduleItem) :
    setSlot c "civil_twilight_end" it = { c with civil_twilight_end := some it } := by
  unfold setSlot
  rw [if_neg (by decide), if_neg (by decide), if_neg (by decide), if_pos rfl]

/-- `getSlot` evaluated at the literal label "civil_twilight_end". -/
theorem getSlot_eval_civil_twilight_end (c : LightConfig) :
    getSlot c "civil_twilight_end" = c.civil_twilight_end := by
  unfold getSlot
  rw [if_neg (by decide), if_neg (by decide), if_neg (by decide), if_pos rfl]

/-- `setSlot` evaluated at the literal label "bed_time". -/
theorem setSlot_eval_bed_time (c : LightConfig) (it : ScheduleItem) :
    setSlot c "bed_time" it = { c with bed_time := some it } := by
  unfold setSlot
  rw [if_neg (by decide), if_neg (by decide), if_neg (by decide), if_neg (by decide), if_pos rfl]

/-- `getSlot` evaluated at the literal label "bed_time". -/
theorem getSlot_eval_bed_time (c : LightConfig) :
    getSlot c "bed_time" = c.bed_time := by
  unfold getSlot
  rw [if_neg (by decide), if_neg (by decide), if_neg (by decide), if_neg (by decide), if_pos rfl]

/-- `setSlot` evaluated at the literal label "night_time". -/
theorem setSlot_eval_night_time (c : LightConfig) (it : ScheduleItem) :
    setSlot c "night_time" it = { c with night_time := some it } := by
  unfold setSlot
  rw [if_neg (by decide), if_neg (by decide), if_neg (by decide), if_neg (by decide), if_neg (by decide), if_pos rfl]

/-- `getSlot` evaluated at the literal label "night_time". -/
theorem getSlot_eval_night_time (c : LightConfig) :
    getSlot c "night_time" = c.night_time := by
  unfold getSlot
  rw [if_neg (by decide), if_neg (by decide), if_neg (by decide), if_neg (by decide), if_neg (by decide), if_pos rfl]

/-- Reading back the slot just written. -/
theorem getSlot_setSlot_eq (c : LightConfig) (l : String) (it : ScheduleItem)
    (hl : l ∈ STANDARD_LABELS) : getSlot (setSlot c l it) l = some it := by
  rcases mem_STANDARD_LABELS l hl with rfl | rfl | rfl | rfl | rfl | rfl
  · rw [setSlot_eval_civil_twilight_begin, getSlot_eval_civil_twilight_begin]
  · rw [setSlot_eval_sunrise, getSlot_eval_sunrise]
  · rw [setSlot_eval_sunset, getSlot_eval_sunset]
  · rw [setSlot_eval_civil_twilight_end, getSlot_eval_civil_twilight_end]
  · rw [setSlot_eval_bed_time, getSlot_eval_bed_time]
  · rw [setSlot_eval_night_time, getSlot_eval_night_time]

/-- Writing one recognized slot leaves every other slot unchanged. -/
theorem getSlot_setSlot_ne (c : LightConfig) (l l2 : String)
    (it : ScheduleItem) (hl : l ∈ STANDARD_LABELS) (hne : l ≠ l2) :
    getSlot (setSlot c l it) l2 = getSlot c l2 := by
  rcases mem_STANDARD_LABELS l hl with rfl | rfl | rfl | rfl | rfl | rfl
  · rw [setSlot_eval_civil_twilight_begin]
    unfold getSlot
    split_ifs <;> simp_all
  · rw [setSlot_eval_sunrise]
    unfold getSlot
    split_ifs <;> simp_all
  · rw [setSlot_eval_sunset]
    unfold getSlot
    split_ifs <;> simp_all
  · rw [setSlot_eval_civil_twilight_end]
    unfold getSlot
    split_ifs <;> simp_all
  · rw [setSlot_eval_bed_time]
    unfold getSlot
    split_ifs <;> simp_all
  · rw [setSlot_eval_night_time]
    unfold getSlot
    split_ifs <;> simp_all

/-- Wire entries serialized by `to_dict` always parse back, to the item
with the same four fields. -/
theorem parse_entryToWire (b : BrightnessScheduleEntry) :
    parseScheduleEntry (entryToWire b) =
      some (ScheduleItem.mk b.time b.unixTime b.warmBrightness b.coolBrightness) :=
  rfl

/-- A skipped entry leaves the config untouched. -/
theorem applyEntry_skip (c : LightConfig) (e : WireEntry)
    (h : entrySkipped e = true) : applyEntry c e = some c := by
  unfold entrySkipped at h
  unfold applyEntry
  cases hl : dictGet e "label" with
  | none => rfl
  | some v =>
    cases v with
    | i n => rfl
    | s lab =>
      rw [hl] at h
      simp only [Bool.not_eq_true'] at h
      simp only [hl]
      rw [if_neg (by intro hc; rw [hc] at h; exact Bool.noConfusion h)]

end LightConfig

namespace LightConfig

/-- What the entry loop does to one named slot: the last entry bearing its
label wins; with no such entry the slot is untouched. -/
theorem applyEntries_getSlot : ∀ (es : List WireEntry) (c c' : LightConfig)
    (l : String), l ∈ STANDARD_LABELS → applyEntries c es = some c' →
    (match lastMatching es l with
     | none => getSlot c' l = getSlot c l
     | some e => ∃ it, parseScheduleEntry e = some it ∧ getSlot c' l = some it)
  | [], c, c', l, hl, h => by
    unfold applyEntries at h
    injection h with h1
    subst h1
    simp [lastMatching]
  | e :: rest, c, c', l, hl, h => by
    unfold applyEntries at h
    cases he : applyEntry c e with
    | none => rw [he] at h; cases h
    | some c1 =>
      rw [he] at h
      have IH := applyEntries_getSlot rest c1 c' l hl h
      unfold applyEntry at he
      cases hlab : dictGet e "label" with
      | none =>
        simp only [hlab] at he
        injection he with he1
        have hm : matchesLabel e l = false := by
          unfold matchesLabel
          rw [hlab]
        cases hrest : lastMatching rest l with
        | some e2 =>
          have hlm : lastMatching (e :: rest) l = some e2 := by
            unfold lastMatching
            rw [hrest]
          simp only [hlm]
          simp only [hrest] at IH
          exact IH
        | none =>
          have hlm : lastMatching (e :: rest) l = none := by
            unfold lastMatching
            rw [hrest, hm]; rfl
          simp only [hlm]
          simp only [hrest] at IH
          rw [IH, he1]
      | some v =>
        cases v with
        | i n =>
          simp only [hlab] at he
          injection he with he1
          have hm : matchesLabel e l = false := by
            unfold matchesLabel
            rw [hlab]
          cases hrest : lastMatching rest l with
          | some e2 =>
            have hlm : lastMatching (e :: rest) l = some e2 := by
              unfold lastMatching
              rw [hrest]
            simp only [hlm]
            simp only [hrest] at IH
            exact IH
          | none =>
            have hlm : lastMatching (e :: rest) l = none := by
              unfold lastMatching
              rw [hrest, hm]; rfl
            simp only [hlm]
            simp only [hrest] at IH
            rw [IH, he1]
        | s lab =>
          simp only [hlab] at he
          by_cases hc : STANDARD_LABELS.contains lab = true
          · rw [if_pos hc] at he
            cases hp : parseScheduleEntry e with
            | none => rw [hp] at he; cases he
            | some it =>
              rw [hp] at he
              injection he with he1
              have hmem : lab ∈ STANDARD_LABELS := List.elem_iff.mp hc
              have hm : matchesLabel e l = (lab == l) := by
                unfold matchesLabel
                rw [hlab]
                show (lab == l && STANDARD_LABELS.contains lab) = (lab == l)
                rw [hc, Bool.and_true]
              cases hrest : lastMatching rest l with
              | some e2 =>
                have hlm : lastMatching (e :: rest) l = some e2 := by
                  unfold lastMatching
                  rw [hrest]
                simp only [hlm]
                simp only [hrest] at IH
                exact IH
              | none =>
                simp only [hrest] at IH
                by_cases heq : lab = l
                · subst heq
                  have hlm : lastMatching (e :: rest) lab = some e := by
                    unfold lastMatching
                    rw [hrest, hm, if_pos (beq_self_eq_true lab)]
                  simp only [hlm]
                  refine ⟨it, hp, ?_⟩
                  rw [IH, ← he1, getSlot_setSlot_eq c lab it hmem]
                · have hbeq : (lab == l) = false := by
                    simp [heq]
                  have hlm : lastMatching (e :: rest) l = none := by
                    unfold lastMatching
                    rw [hrest, hm, hbeq]; rfl
                  simp only [hlm]
                  rw [IH, ← he1, getSlot_setSlot_ne c lab l it hmem heq]
          · rw [if_neg hc] at he
            injection he with he1
            simp only [Bool.not_eq_true] at hc
            have hm : matchesLabel e l = false := by
              unfold matchesLabel
              rw [hlab]
              show (lab == l && STANDARD_LABELS.contains lab) = false
              rw [hc, Bool.and_false]
            cases hrest : lastMatching rest l with
            | some e2 =>
              have hlm : lastMatching (e :: rest) l = some e2 := by
                unfold lastMatching
                rw [hrest]
              simp only [hlm]
              simp only [hrest] at IH
              exact IH
            | none =>
              have hlm : lastMatching (e :: rest) l = none := by
                unfold lastMatching
                rw [hrest, hm]; rfl
              simp only [hlm]
              simp only [hrest] at IH
              rw [IH, he1]

/-- `lastMatching` is the last element of the filtered list. -/
theorem lastMatching_eq_filter (l : String) : ∀ (es : List WireEntry),
    lastMatching es l = (es.filter (fun e => matchesLabel e l)).getLast?
  | [] => rfl
  | e :: rest => by
    unfold lastMatching
    rw [lastMatching_eq_filter l rest]
    cases hm : matchesLabel e l with
    | false =>
      simp only [List.filter_cons, hm, Bool.false_eq_true, if_false]
      cases hf : (rest.filter (fun e => matchesLabel e l)).getLast? with
      | none => rfl
      | some e2 => rfl
    | true =>
      simp only [List.filter_cons, hm, if_true]
      cases hfil : rest.filter (fun e => matchesLabel e l) with
      | nil => rfl
      | cons x xs =>
        rw [List.getLast?_cons_cons]
        have hsome : (x :: xs).getLast?.isSome := by
          rw [List.getLast?_isSome]
          intro hx
          cases hx
        cases hf : (x :: xs).getLast? with
        | none => rw [hf] at hsome; cases hsome
        | some e2 => rfl

/-- The entry loop succeeds whenever every entry parses. -/
theorem applyEntries_total : ∀ (es : List WireEntry) (c : LightConfig),
    (∀ e, e ∈ es → ∃ it, parseScheduleEntry e = some it) →
    ∃ c', applyEntries c es = some c'
  | [], c, _ => ⟨c, rfl⟩
  | e :: rest, c, hall => by
    have hstep : ∃ c1, applyEntry c e = some c1 := by
      cases hlab : dictGet e "label" with
      | none => exact ⟨c, by unfold applyEntry; rw [hlab]⟩
      | some v =>
        cases v with
        | i n => exact ⟨c, by unfold applyEntry; rw [hlab]⟩
        | s lab =>
          by_cases hc : STANDARD_LABELS.contains lab = true
          · obtain ⟨it, hit⟩ := hall e (List.mem_cons_self e rest)
            refine ⟨setSlot c lab it, ?_⟩
            unfold applyEntry
            rw [hlab]
            show (if STANDARD_LABELS.contains lab = true then
                match parseScheduleEntry e with
                | some item => some (setSlot c lab item)
                | none => none
              else some c) = some (setSlot c lab it)
            rw [if_pos hc, hit]
          · refine ⟨c, ?_⟩
            unfold applyEntry
            rw [hlab]
            show (if STANDARD_LABELS.contains lab = true then
                match parseScheduleEntry e with
                | some item => some (setSlot c lab item)
                | none => none
              else some c) = some c
            rw [if_neg hc]
    obtain ⟨c1, hc1⟩ := hstep
    obtain ⟨c', hc'⟩ := applyEntries_total rest c1
      (fun e2 he2 => hall e2 (List.mem_cons_of_mem e he2))
    refine ⟨c', ?_⟩
    unfold applyEntries
    rw [hc1]
    exact hc'

end LightConfig

namespace LightConfig

/-- `matchesLabel` on a serialized entry tests its `label` field. -/
theorem matchesLabel_entryToWire (b : BrightnessScheduleEntry) (l : String) :
    matchesLabel (entryToWire b) l =
      ((b.label == l) && STANDARD_LABELS.contains b.label) := rfl

/-- Filtering one serialized slot group by label keeps it exactly when the
group bears that (recognized) label. -/
theorem filter_optEntry (o : Option ScheduleItem) (lab l : String) :
    ((optEntry o lab).map entryToWire).filter (fun e => matchesLabel e l) =
    (if lab = l ∧ lab ∈ STANDARD_LABELS then (optEntry o lab).map entryToWire
     else []) := by
  cases o with
  | none => simp [optEntry]
  | some it =>
    simp only [optEntry, List.map_cons, List.map_nil, List.filter_cons,
      List.filter_nil, matchesLabel_entryToWire, mkEntry]
    by_cases h1 : lab = l
    · subst h1
      by_cases h2 : lab ∈ STANDARD_LABELS
      · have hc : STANDARD_LABELS.contains lab = true := List.elem_iff.mpr h2
        simp [hc, h2]
      · have hc : STANDARD_LABELS.contains lab = false :=
          Bool.eq_false_iff.mpr (fun hcc => h2 (List.elem_iff.mp hcc))
        simp [hc, h2]
    · have hbeq : (lab == l) = false := by simp [h1]
      simp [hbeq, h1]

/-- Filtering the serialized pre-sort entry list by a recognized label
leaves exactly that label's slot group. -/
theorem filter_scheduleEntries (c : LightConfig) (l : String)
    (hl : l ∈ STANDARD_LABELS) :
    ((scheduleEntries c).map entryToWire).filter (fun e => matchesLabel e l) =
    (optEntry (getSlot c l) l).map entryToWire := by
  rcases mem_STANDARD_LABELS l hl with rfl | rfl | rfl | rfl | rfl | rfl
  · simp only [scheduleEntries, List.map_append, List.filter_append,
      filter_optEntry]
    simp [STANDARD_LABELS, getSlot_eval_civil_twilight_begin]
  · simp only [scheduleEntries, List.map_append, List.filter_append,
      filter_optEntry]
    simp [STANDARD_LABELS, getSlot_eval_sunrise]
  · simp only [scheduleEntries, List.map_append, List.filter_append,
      filter_optEntry]
    simp [STANDARD_LABELS, getSlot_eval_sunset]
  · simp only [scheduleEntries, List.map_append, List.filter_append,
      filter_optEntry]
    simp [STANDARD_LABELS, getSlot_eval_civil_twilight_end]
  · simp only [scheduleEntries, List.map_append, List.filter_append,
      filter_optEntry]
    simp [STANDARD_LABELS, getSlot_eval_bed_time]
  · simp only [scheduleEntries, List.map_append, List.filter_append,
      filter_optEntry]
    simp [STANDARD_LABELS, getSlot_eval_night_time]

/-- Filtering the serialized, sorted schedule by a recognized label leaves
exactly that label's slot group: sorting permutes, and at most one entry
bears each label. -/
theorem filter_build (c : LightConfig) (l : String)
    (hl : l ∈ STANDARD_LABELS) :
    ((build_brightness_schedule c).map entryToWire).filter
        (fun e => matchesLabel e l) =
      (optEntry (getSlot c l) l).map entryToWire := by
  have hperm :=
    (((List.mergeSort_perm (scheduleEntries c) entryLE).map entryToWire).filter
      (fun e => matchesLabel e l))
  rw [filter_scheduleEntries c l hl] at hperm
  cases hslot : getSlot c l with
  | none =>
    rw [hslot] at hperm
    simp only [optEntry, List.map_nil] at hperm
    unfold build_brightness_schedule
    rw [List.perm_nil.mp hperm]
    simp [optEntry]
  | some it =>
    rw [hslot] at hperm
    simp only [optEntry, List.map_cons, List.map_nil] at hperm
    exact List.perm_singleton.mp hperm

/-- Round-tripping through the wire schedule restores each named slot. -/
theorem roundtrip_slot (c cfg' : LightConfig) (l : String)
    (hl : l ∈ STANDARD_LABELS)
    (hcfg' : applyEntries (init c.mode [])
      ((build_brightness_schedule c).map entryToWire) = some cfg') :
    getSlot cfg' l = getSlot c l := by
  have h := applyEntries_getSlot
    ((build_brightness_schedule c).map entryToWire) (init c.mode []) cfg' l hl
    hcfg'
  rw [lastMatching_eq_filter] at h
  rw [filter_build c l hl] at h
  cases hs : getSlot c l with
  | none =>
    rw [hs] at h
    simp only [optEntry, List.map_nil, List.getLast?_nil] at h
    rw [h, getSlot_init]
  | some it =>
    rw [hs] at h
    simp only [optEntry, List.map_cons, List.map_nil,
      List.getLast?_singleton] at h
    obtain ⟨it2, hp, hg⟩ := h
    rw [parse_entryToWire] at hp
    injection hp with hpe
    rw [hg, ← hpe]
    rfl

end LightConfig

/-- Parsing back a serialized config runs the entry loop on the serialized
schedule, starting from a fresh config with the serialized mode. -/
theorem from_dict_to_dict_unfold (nowUtc : Int) (c : LightConfig) :
    LightConfig.from_dict (some (LightConfig.to_dict nowUtc c)) =
      LightConfig.applyEntries (LightConfig.init c.mode [])
        ((LightConfig.build_brightness_schedule c).map
          LightConfig.entryToWire) := by
  simp [LightConfig.from_dict, LightConfig.to_dict, dictGet]

/-- Claim C6: parsing the wire form back (`from_dict` after `to_dict`)
succeeds and yields a config with the same mode and identical named slots
(same presence, time, unixTime and brightness values). -/
theorem round_trip (nowUtc : Int) (c : LightConfig) :
    ∃ cfg', LightConfig.from_dict (some (LightConfig.to_dict nowUtc c)) =
        some cfg' ∧
      cfg'.mode = c.mode ∧
      cfg'.civil_twilight_begin = c.civil_twilight_begin ∧
      cfg'.sunrise = c.sunrise ∧
      cfg'.sunset = c.sunset ∧
      cfg'.civil_twilight_end = c.civil_twilight_end ∧
      cfg'.bed_time = c.bed_time ∧
      cfg'.night_time = c.night_time := by
  obtain ⟨cfg', hcfg'⟩ := LightConfig.applyEntries_total
    ((LightConfig.build_brightness_schedule c).map LightConfig.entryToWire)
    (LightConfig.init c.mode [])
    (by
      intro e he
      rw [List.mem_map] at he
      obtain ⟨b, -, rfl⟩ := he
      exact ⟨_, LightConfig.parse_entryToWire b⟩)
  refine ⟨cfg', by rw [from_dict_to_dict_unfold, hcfg'], ?_, ?_, ?_, ?_, ?_,
    ?_, ?_⟩
  · rw [LightConfig.applyEntries_mode _ _ _ hcfg']
    rfl
  · have h := LightConfig.roundtrip_slot c cfg' "civil_twilight_begin"
      (by decide) hcfg'
    rwa [LightConfig.getSlot_eval_civil_twilight_begin,
      LightConfig.getSlot_eval_civil_twilight_begin] at h
  · have h := LightConfig.roundtrip_slot c cfg' "sunrise" (by decide) hcfg'
    rwa [LightConfig.getSlot_eval_sunrise, LightConfig.getSlot_eval_sunrise]
      at h
  · have h := LightConfig.roundtrip_slot c cfg' "sunset" (by decide) hcfg'
    rwa [LightConfig.getSlot_eval_sunset, LightConfig.getSlot_eval_sunset] at h
  · have h := LightConfig.roundtrip_slot c cfg' "civil_twilight_end"
      (by decide) hcfg'
    rwa [LightConfig.getSlot_eval_civil_twilight_end,
      LightConfig.getSlot_eval_civil_twilight_end] at h
  · have h := LightConfig.roundtrip_slot c cfg' "bed_time" (by decide) hcfg'
    rwa [LightConfig.getSlot_eval_bed_time, LightConfig.getSlot_eval_bed_time]
      at h
  · have h := LightConfig.roundtrip_slot c cfg' "night_time" (by decide) hcfg'
    rwa [LightConfig.getSlot_eval_night_time,
      LightConfig.getSlot_eval_night_time] at h

namespace LightConfig

/-- The entry loop over an appended list runs the two halves in sequence. -/
theorem applyEntries_append (xs ys : List WireEntry) : ∀ (c : LightConfig),
    applyEntries c (xs ++ ys) =
      (applyEntries c xs).bind (fun c1 => applyEntries c1 ys) := by
  induction xs with
  | nil => intro c; rfl
  | cons x xs IH =>
    intro c
    show (match applyEntry c x with
          | some c1 => applyEntries c1 (xs ++ ys)
          | none => none) =
        ((match applyEntry c x with
          | some c1 => applyEntries c1 xs
          | none => none).bind fun c1 => applyEntries c1 ys)
    cases hx : applyEntry c x with
    | none => rfl
    | some c1 => exact IH c1

/-- Entries contributed by a named slot carry that slot's label. -/
theorem label_of_mem_optEntry (b : BrightnessScheduleEntry)
    (o : Option ScheduleItem) (lab : String) (h : b ∈ optEntry o lab) :
    b.label = lab := by
  cases o with
  | none => cases h
  | some it =>
    simp only [optEntry, List.mem_singleton] at h
    rw [h]
    rfl

end LightConfig

/-- Claim C7: a `brightnessSchedule` entry whose label is unrecognized is
dropped: removing it from the payload leaves `from_dict`'s result
unchanged, and every entry `build_brightness_schedule` emits bears one of
the six recognized labels. -/
theorem unrecognized_label_drop :
    (∀ (d d2 : WireConfig) (pre post : List WireEntry) (e : WireEntry),
      LightConfig.entrySkipped e = true →
      dictGet d "mode" = dictGet d2 "mode" →
      dictGet d "brightnessSchedule" =
        some (ConfigValue.list (pre ++ e :: post)) →
      dictGet d2 "brightnessSchedule" =
        some (ConfigValue.list (pre ++ post)) →
      LightConfig.from_dict (some d) = LightConfig.from_dict (some d2)) ∧
    (∀ (c : LightConfig) (b : BrightnessScheduleEntry),
      b ∈ LightConfig.build_brightness_schedule c →
      b.label ∈ LightConfig.STANDARD_LABELS) := by
  constructor
  · intro d d2 pre post e hskip hm hb hb2
    have hd : d.isEmpty = false := by
      cases d with
      | nil => exact absurd hb (by simp [dictGet])
      | cons p rest => rfl
    have hd2 : d2.isEmpty = false := by
      cases d2 with
      | nil => exact absurd hb2 (by simp [dictGet])
      | cons p rest => rfl
    simp only [LightConfig.from_dict]
    rw [if_neg (by simp [hd]), if_neg (by simp [hd2]), hm]
    simp only [hb, hb2]
    generalize LightConfig.init
      (match (dictGet d2 "mode").getD (ConfigValue.str LightConfig.DEFAULT_MODE) with
       | ConfigValue.str s => s
       | _ => LightConfig.DEFAULT_MODE) [] = cfg0
    rw [LightConfig.applyEntries_append pre (e :: post),
      LightConfig.applyEntries_append pre post]
    cases happly : LightConfig.applyEntries cfg0 pre with
    | none => rfl
    | some c1 =>
      show (match LightConfig.applyEntry c1 e with
            | some c2 => LightConfig.applyEntries c2 post
            | none => none) = LightConfig.applyEntries c1 post
      rw [LightConfig.applyEntry_skip c1 e hskip]
  · intro c b hb
    have hb2 : b ∈ LightConfig.scheduleEntries c :=
      (List.mergeSort_perm (LightConfig.scheduleEntries c)
        LightConfig.entryLE).mem_iff.mp hb
    unfold LightConfig.scheduleEntries at hb2
    simp only [List.mem_append] at hb2
    rcases hb2 with ((((h | h) | h) | h) | h) | h
    · rw [LightConfig.label_of_mem_optEntry b _ _ h]; decide
    · rw [LightConfig.label_of_mem_optEntry b _ _ h]; decide
    · rw [LightConfig.label_of_mem_optEntry b _ _ h]; decide
    · rw [LightConfig.label_of_mem_optEntry b _ _ h]; decide
    · rw [LightConfig.label_of_mem_optEntry b _ _ h]; decide
    · rw [LightConfig.label_of_mem_optEntry b _ _ h]; decide

/-- Witness for C7 at a concrete input: dropping the `custom_foo` entry
from a payload leaves the parsed config unchanged. -/
theorem unrecognized_label_drop_witness :
    LightConfig.from_dict (some [("mode", ConfigValue.str "dayNight"),
      ("brightnessSchedule", ConfigValue.list
        [[("time", EntryVal.s "10:00"), ("unixTime", EntryVal.i 36000),
          ("warmBrightness", EntryVal.i 10), ("coolBrightness", EntryVal.i 20),
          ("label", EntryVal.s "custom_foo")]])]) =
    LightConfig.from_dict (some [("mode", ConfigValue.str "dayNight"),
      ("brightnessSchedule", ConfigValue.list [])]) :=
  unrecognized_label_drop.1
    [("mode", ConfigValue.str "dayNight"),
     ("brightnessSchedule", ConfigValue.list
       [[("time", EntryVal.s "10:00"), ("unixTime", EntryVal.i 36000),
         ("warmBrightness", EntryVal.i 10), ("coolBrightness", EntryVal.i 20),
         ("label", EntryVal.s "custom_foo")]])]
    [("mode", ConfigValue.str "dayNight"),
     ("brightnessSchedule", ConfigValue.list [])]
    [] []
    [("time", EntryVal.s "10:00"), ("unixTime", EntryVal.i 36000),
     ("warmBrightness", EntryVal.i 10), ("coolBrightness", EntryVal.i 20),
     ("label", EntryVal.s "custom_foo")]
    (by decide) (by decide) (by decide) (by decide)

namespace LightConfig

/-- The pre-sort entry list contains exactly the present named slots,
each tagged with its canonical label. -/
theorem mem_scheduleEntries (c : LightConfig) (b : BrightnessScheduleEntry) :
    b ∈ scheduleEntries c ↔
    ∃ l it, l ∈ STANDARD_LABELS ∧ getSlot c l = some it ∧ b = mkEntry it l := by
  unfold scheduleEntries
  simp only [List.mem_append]
  constructor
  · rintro (((((h | h) | h) | h) | h) | h)
    · cases hs : c.civil_twilight_begin with
      | none => rw [hs] at h; cases h
      | some it =>
        rw [hs] at h
        simp only [optEntry, List.mem_singleton] at h
        exact ⟨"civil_twilight_begin", it, by decide,
          by rw [getSlot_eval_civil_twilight_begin, hs], h⟩
    · cases hs : c.sunrise with
      | none => rw [hs] at h; cases h
      | some it =>
        rw [hs] at h
        simp only [optEntry, List.mem_singleton] at h
        exact ⟨"sunrise", it, by decide, by rw [getSlot_eval_sunrise, hs], h⟩
    · cases hs : c.sunset with
      | none => rw [hs] at h; cases h
      | some it =>
        rw [hs] at h
        simp only [optEntry, List.mem_singleton] at h
        exact ⟨"sunset", it, by decide, by rw [getSlot_eval_sunset, hs], h⟩
    · cases hs : c.civil_twilight_end with
      | none => rw [hs] at h; cases h
      | some it =>
        rw [hs] at h
        simp only [optEntry, List.mem_singleton] at h
        exact ⟨"civil_twilight_end", it, by decide,
          by rw [getSlot_eval_civil_twilight_end, hs], h⟩
    · cases hs : c.bed_time with
      | none => rw [hs] at h; cases h
      | some it =>
        rw [hs] at h
        simp only [optEntry, List.mem_singleton] at h
        exact ⟨"bed_time", it, by decide, by rw [getSlot_eval_bed_time, hs], h⟩
    · cases hs : c.night_time with
      | none => rw [hs] at h; cases h
      | some it =>
        rw [hs] at h
        simp only [optEntry, List.mem_singleton] at h
        exact ⟨"night_time", it, by decide,
          by rw [getSlot_eval_night_time, hs], h⟩
  · rintro ⟨l, it, hl, hslot, rfl⟩
    rcases mem_STANDARD_LABELS l hl with rfl | rfl | rfl | rfl | rfl | rfl
    · rw [getSlot_eval_civil_twilight_begin] at hslot
      exact Or.inl (Or.inl (Or.inl (Or.inl (Or.inl
        (by rw [hslot]; simp [optEntry])))))
    · rw [getSlot_eval_sunrise] at hslot
      exact Or.inl (Or.inl (Or.inl (Or.inl (Or.inr
        (by rw [hslot]; simp [optEntry])))))
    · rw [getSlot_eval_sunset] at hslot
      exact Or.inl (Or.inl (Or.inl (Or.inr (by rw [hslot]; simp [optEntry]))))
    · rw [getSlot_eval_civil_twilight_end] at hslot
      exact Or.inl (Or.inl (Or.inr (by rw [hslot]; simp [optEntry])))
    · rw [getSlot_eval_bed_time] at hslot
      exact Or.inl (Or.inr (by rw [hslot]; simp [optEntry]))
    · rw [getSlot_eval_night_time] at hslot
      exact Or.inr (by rw [hslot]; simp [optEntry])

end LightConfig

/-- Claim C8: `build_brightness_schedule` is sorted non-decreasing by
`unixTime`, is a permutation of the collected present slots, and contains
an entry exactly for each present named slot (absent slots omitted, no
entry synthesized). -/
theorem build_sort_order (c : LightConfig) :
    (LightConfig.build_brightness_schedule c).Pairwise
      (fun a b => a.unixTime ≤ b.unixTime) ∧
    (LightConfig.build_brightness_schedule c).Perm
      (LightConfig.scheduleEntries c) ∧
    (∀ b, b ∈ LightConfig.build_brightness_schedule c ↔
      ∃ l it, l ∈ LightConfig.STANDARD_LABELS ∧
        LightConfig.getSlot c l = some it ∧ b = LightConfig.mkEntry it l) := by
  have htrans : ∀ (a b c2 : BrightnessScheduleEntry),
      LightConfig.entryLE a b = true → LightConfig.entryLE b c2 = true →
      LightConfig.entryLE a c2 = true := by
    intro a b c2 hab hbc
    simp only [LightConfig.entryLE, decide_eq_true_eq] at hab hbc ⊢
    omega
  have htotal : ∀ (a b : BrightnessScheduleEntry),
      (LightConfig.entryLE a b || LightConfig.entryLE b a) = true := by
    intro a b
    simp only [LightConfig.entryLE, Bool.or_eq_true, decide_eq_true_eq]
    omega
  refine ⟨?_, List.mergeSort_perm _ _, ?_⟩
  · have h := List.sorted_mergeSort htrans htotal
      (LightConfig.scheduleEntries c)
    exact h.imp (fun hab => by
      simpa only [LightConfig.entryLE, decide_eq_true_eq] using hab)
  · intro b
    unfold LightConfig.build_brightness_schedule
    rw [(List.mergeSort_perm (LightConfig.scheduleEntries c)
      LightConfig.entryLE).mem_iff]
    exact LightConfig.mem_scheduleEntries c b
